import Mathlib

/-!
Shallow embedding of the 3D Maximal-Rectangles packing engine
(`src/core/packing.py`) together with the data model it uses
(`src/models/product.py`, `src/models/container.py`).

Python floats are modelled as exact rationals (`ℚ`); every claim below is
about comparisons, bookkeeping and list structure, where `ℚ` is a faithful
model of the arithmetic the code performs.
-/

/-- `FreeRectangle` from `src/core/packing.py`: an empty axis-aligned cuboid
`(x, y, z)` corner with dimensions `length × width × height`. -/
structure FreeRectangle where
  x : ℚ
  y : ℚ
  z : ℚ
  length : ℚ
  width : ℚ
  height : ℚ
deriving DecidableEq, Repr

/-- `FreeRectangle.volume` (stored at construction in the source). -/
def FreeRectangle.volume (r : FreeRectangle) : ℚ :=
  r.length * r.width * r.height

/-- `FreeRectangle.can_fit`: the item fits iff each rect dimension is at
least the item dimension. -/
def FreeRectangle.can_fit (r : FreeRectangle) (item_l item_w item_h : ℚ) : Bool :=
  decide (item_l ≤ r.length) && decide (item_w ≤ r.width) && decide (item_h ≤ r.height)

/-- `UrunData` from `src/models/product.py` (fields the packer reads). -/
structure UrunData where
  urun_id : ℕ
  boy : ℚ
  en : ℚ
  yukseklik : ℚ
  agirlik : ℚ
  donus_serbest : Bool
deriving DecidableEq, Repr

/-- `PaletConfig` from `src/models/container.py`. -/
structure PaletConfig where
  length : ℚ
  width : ℚ
  height : ℚ
  max_weight : ℚ
deriving DecidableEq, Repr

/-- Modelled from the spec: `possible_orientations_for` is imported by the
packer from `src/utils/helpers.py`, a file absent from the sources.  Spec
§4.2: the base triple `(length, width, height)` comes first; if the product
is horizontally rotatable the swap `(width, length, height)` is appended
when distinct; duplicates are removed keeping the first occurrence. -/
def possible_orientations_for (u : UrunData) : List (ℚ × ℚ × ℚ) :=
  if u.donus_serbest && decide (u.boy ≠ u.en) then
    [(u.boy, u.en, u.yukseklik), (u.en, u.boy, u.yukseklik)]
  else
    [(u.boy, u.en, u.yukseklik)]

/-- `intersects_3d` from `src/core/packing.py`: strict AABB interior
intersection between a free rect and a placed box (touching faces do not
intersect). -/
def intersects_3d (rect : FreeRectangle) (px py pz pl pw ph : ℚ) : Bool :=
  !(decide (px + pl ≤ rect.x) || decide (rect.x + rect.length ≤ px) ||
    decide (py + pw ≤ rect.y) || decide (rect.y + rect.width ≤ py) ||
    decide (pz + ph ≤ rect.z) || decide (rect.z + rect.height ≤ pz))

/-- `split_rectangle_maximal` from `src/core/packing.py`: up to six guarded
residual sub-cuboids (LEFT, RIGHT, FRONT, BACK, BOTTOM, TOP), appended in
that order. -/
def split_rectangle_maximal (rect : FreeRectangle) (px py pz pl pw ph : ℚ) :
    List FreeRectangle :=
  (if rect.x < px then
    [⟨rect.x, rect.y, rect.z, px - rect.x, rect.width, rect.height⟩] else []) ++
  (if px + pl < rect.x + rect.length then
    [⟨px + pl, rect.y, rect.z, rect.x + rect.length - (px + pl), rect.width, rect.height⟩]
   else []) ++
  (if rect.y < py then
    [⟨rect.x, rect.y, rect.z, rect.length, py - rect.y, rect.height⟩] else []) ++
  (if py + pw < rect.y + rect.width then
    [⟨rect.x, py + pw, rect.z, rect.length, rect.y + rect.width - (py + pw), rect.height⟩]
   else []) ++
  (if rect.z < pz then
    [⟨rect.x, rect.y, rect.z, rect.length, rect.width, pz - rect.z⟩] else []) ++
  (if pz + ph < rect.z + rect.height then
    [⟨rect.x, rect.y, pz + ph, rect.length, rect.width, rect.z + rect.height - (pz + ph)⟩]
   else [])

/-- The containment test inlined in `remove_redundant_rectangles`:
`outer` fully contains `inner`, inclusive on all six faces. -/
def rect_contains (outer inner : FreeRectangle) : Bool :=
  decide (outer.x ≤ inner.x) && decide (outer.y ≤ inner.y) &&
  decide (outer.z ≤ inner.z) &&
  decide (inner.x + inner.length ≤ outer.x + outer.length) &&
  decide (inner.y + inner.width ≤ outer.y + outer.width) &&
  decide (inner.z + inner.height ≤ outer.z + outer.height)

/-- `remove_redundant_rectangles` from `src/core/packing.py`: keep a rect
iff no rect at a different index of the list contains it. -/
def remove_redundant_rectangles (rects : List FreeRectangle) : List FreeRectangle :=
  ((rects.enum.filter (fun p =>
      !(rects.enum.any (fun q => q.1 != p.1 && rect_contains q.2 p.2)))).map Prod.snd)

/-- One placement record, as appended to `current_pallet['items']`. -/
structure Placement where
  urun : UrunData
  x : ℚ
  y : ℚ
  z : ℚ
  L : ℚ
  W : ℚ
  H : ℚ
deriving DecidableEq, Repr

/-- One emitted pallet: `{'items': [...], 'weight': w}`. -/
structure Pallet where
  items : List Placement
  weight : ℚ
deriving DecidableEq, Repr

/-- The open (current) pallet: items, running weight, free-rect list. -/
structure CurrentPallet where
  items : List Placement
  weight : ℚ
  free_rects : List FreeRectangle
deriving DecidableEq, Repr

/-- Loop state of `pack_maximal_rectangles`: emitted pallets plus the
current open pallet. -/
structure PackState where
  pallets : List Pallet
  current : CurrentPallet
deriving DecidableEq, Repr

/-- The initial free-rect list of a fresh pallet: the whole pallet cuboid. -/
def initial_free_rects (cfg : PaletConfig) : List FreeRectangle :=
  [⟨0, 0, 0, cfg.length, cfg.width, cfg.height⟩]

/-- A freshly opened pallet. -/
def fresh_current (cfg : PaletConfig) : CurrentPallet :=
  ⟨[], 0, initial_free_rects cfg⟩

/-- Finalize-and-reopen, as done at the weight check and the no-fit branch:
append the current pallet to the output iff it has items, then open a fresh
pallet. -/
def emit_if_nonempty (st : PackState) (cfg : PaletConfig) : PackState :=
  if st.current.items = [] then
    { pallets := st.pallets, current := fresh_current cfg }
  else
    { pallets := st.pallets ++ [⟨st.current.items, st.current.weight⟩],
      current := fresh_current cfg }

/-- The BSSF score computed in the packer loop:
`min(rect.length - item_l, rect.width - item_w)`. -/
def short_side (rect : FreeRectangle) (item_l item_w : ℚ) : ℚ :=
  min (rect.length - item_l) (rect.width - item_w)

/-- Whether a candidate `(orientation, rect)` pair fits. -/
def cand_fits (c : (ℚ × ℚ × ℚ) × FreeRectangle) : Bool :=
  c.2.can_fit c.1.1 c.1.2.1 c.1.2.2

/-- The BSSF score of a candidate `(orientation, rect)` pair. -/
def cand_score (c : (ℚ × ℚ × ℚ) × FreeRectangle) : ℚ :=
  short_side c.2 c.1.1 c.1.2.1

/-- Iteration order of the packer's search: outer loop over orientations,
inner loop over the free rects. -/
def candidate_pairs (orientations : List (ℚ × ℚ × ℚ))
    (rects : List FreeRectangle) : List ((ℚ × ℚ × ℚ) × FreeRectangle) :=
  orientations.flatMap (fun dims => rects.map (fun rect => (dims, rect)))

/-- One step of the packer's best-fit accumulation (lines 263-275 of
`packing.py`): a fitting candidate replaces the incumbent only on a
strictly smaller short-side score (`min_short_side` starts at infinity, so
the first fitting candidate is always accepted). -/
def best_fit_step (acc : Option (((ℚ × ℚ × ℚ) × FreeRectangle) × ℚ))
    (c : (ℚ × ℚ × ℚ) × FreeRectangle) :
    Option (((ℚ × ℚ × ℚ) × FreeRectangle) × ℚ) :=
  if cand_fits c then
    match acc with
    | none => some (c, cand_score c)
    | some (b, bs) => if cand_score c < bs then some (c, cand_score c) else some (b, bs)
  else acc

/-- The packer's best-fit search over `orientations × free_rects`. -/
def best_fit_search (orientations : List (ℚ × ℚ × ℚ))
    (rects : List FreeRectangle) :
    Option (((ℚ × ℚ × ℚ) × FreeRectangle) × ℚ) :=
  (candidate_pairs orientations rects).foldl best_fit_step none

/-- The split phase of a placement (lines 332-344): every free rect
intersecting the placed box is replaced by its residual sub-cuboids, every
other rect survives unchanged. -/
def update_free_rects (rects : List FreeRectangle) (px py pz pl pw ph : ℚ) :
    List FreeRectangle :=
  rects.flatMap (fun r =>
    if intersects_3d r px py pz pl pw ph then
      split_rectangle_maximal r px py pz pl pw ph
    else [r])

/-- Place an item into the chosen rect with the chosen orientation
(lines 317-347): append the placement, add the weight, split the free
rects, prune redundant ones. -/
def place_item (st : PackState) (urun : UrunData) (rect : FreeRectangle)
    (dims : ℚ × ℚ × ℚ) : PackState :=
  { pallets := st.pallets,
    current :=
      { items := st.current.items ++
          [⟨urun, rect.x, rect.y, rect.z, dims.1, dims.2.1, dims.2.2⟩],
        weight := st.current.weight + urun.agirlik,
        free_rects := remove_redundant_rectangles
          (update_free_rects st.current.free_rects
            rect.x rect.y rect.z dims.1 dims.2.1 dims.2.2) } }

/-- The per-item loop body of `pack_maximal_rectangles` (lines 237-347):
weight pre-check, best-fit search, no-fit retry on a fresh pallet, forced
placement fallback, placement and split. -/
def pack_step (cfg : PaletConfig) (st : PackState) (urun : UrunData) : PackState :=
  let st1 := if cfg.max_weight < st.current.weight + urun.agirlik then
               emit_if_nonempty st cfg
             else st
  let orientations := possible_orientations_for urun
  match best_fit_search orientations st1.current.free_rects with
  | some (c, _) => place_item st1 urun c.2 c.1
  | none =>
      let st2 := emit_if_nonempty st1 cfg
      match best_fit_search orientations st2.current.free_rects with
      | some (c, _) => place_item st2 urun c.2 c.1
      | none =>
          let rect := st2.current.free_rects.headD
            ⟨0, 0, 0, cfg.length, cfg.width, cfg.height⟩
          let dims := orientations.headD (urun.boy, urun.en, urun.yukseklik)
          place_item st2 urun rect dims

/-- The initial loop state. -/
def initial_state (cfg : PaletConfig) : PackState :=
  ⟨[], fresh_current cfg⟩

/-- `pack_maximal_rectangles` from `src/core/packing.py`. -/
def pack_maximal_rectangles (urunler : List UrunData) (cfg : PaletConfig) :
    List Pallet :=
  let st := urunler.foldl (pack_step cfg) (initial_state cfg)
  if st.current.items = [] then st.pallets
  else st.pallets ++ [⟨st.current.items, st.current.weight⟩]

/-!
## Prop-level geometry and basic lemmas
-/

/-- `rect_box_separated r bx qy qz bl bw bh`: the free rect `r` and the box
with corner `(bx, qy, qz)` and dimensions `(bl, bw, bh)` have disjoint
interiors (they are separated, faces may touch, along some axis). -/
def rect_box_separated (r : FreeRectangle) (bx qy qz bl bw bh : ℚ) : Prop :=
  bx + bl ≤ r.x ∨ r.x + r.length ≤ bx ∨
  qy + bw ≤ r.y ∨ r.y + r.width ≤ qy ∨
  qz + bh ≤ r.z ∨ r.z + r.height ≤ qz

/-- Two placements have strictly disjoint interiors: they are separated
(touching faces allowed) along at least one of the three axes. -/
def placements_separated (p q : Placement) : Prop :=
  p.x + p.L ≤ q.x ∨ q.x + q.L ≤ p.x ∨
  p.y + p.W ≤ q.y ∨ q.y + q.W ≤ p.y ∨
  p.z + p.H ≤ q.z ∨ q.z + q.H ≤ p.z

/-- A placement lies inside the pallet cuboid (spec invariant I1). -/
def in_bounds (cfg : PaletConfig) (p : Placement) : Prop :=
  0 ≤ p.x ∧ p.x + p.L ≤ cfg.length ∧
  0 ≤ p.y ∧ p.y + p.W ≤ cfg.width ∧
  0 ≤ p.z ∧ p.z + p.H ≤ cfg.height

/-- A free rect lies inside the pallet cuboid. -/
def rect_in_bounds (cfg : PaletConfig) (r : FreeRectangle) : Prop :=
  0 ≤ r.x ∧ r.x + r.length ≤ cfg.length ∧
  0 ≤ r.y ∧ r.y + r.width ≤ cfg.width ∧
  0 ≤ r.z ∧ r.z + r.height ≤ cfg.height

/-- `inner` is fully inside `outer`. -/
def sub_rect (inner outer : FreeRectangle) : Prop :=
  outer.x ≤ inner.x ∧ inner.x + inner.length ≤ outer.x + outer.length ∧
  outer.y ≤ inner.y ∧ inner.y + inner.width ≤ outer.y + outer.width ∧
  outer.z ≤ inner.z ∧ inner.z + inner.height ≤ outer.z + outer.height

/-- Some orientation of the product fits inside an empty pallet. -/
def fits_empty_pallet (cfg : PaletConfig) (u : UrunData) : Prop :=
  ∃ d ∈ possible_orientations_for u,
    d.1 ≤ cfg.length ∧ d.2.1 ≤ cfg.width ∧ d.2.2 ≤ cfg.height

/-!
## Derived predicates, invariants and concrete fixtures
-/

/-- Invariant of the best-fit fold after processing a prefix: either nothing
fit so far, or the accumulator holds the first candidate attaining the
minimal short-side score among the fitting candidates processed so far. -/
def search_inv (processed : List ((ℚ × ℚ × ℚ) × FreeRectangle))
    (acc : Option (((ℚ × ℚ × ℚ) × FreeRectangle) × ℚ)) : Prop :=
  (acc = none ∧ ∀ c ∈ processed, cand_fits c = false) ∨
  (∃ b s l1 l2, acc = some (b, s) ∧ cand_fits b = true ∧ s = cand_score b ∧
    processed = l1 ++ b :: l2 ∧
    (∀ c ∈ l1, cand_fits c = true → s < cand_score c) ∧
    (∀ c ∈ l2, cand_fits c = true → s ≤ cand_score c))

/-- Every free rect is separated from every placed item of the open pallet. -/
def free_rects_ok (items : List Placement) (rects : List FreeRectangle) : Prop :=
  ∀ r ∈ rects, ∀ p ∈ items, rect_box_separated r p.x p.y p.z p.L p.W p.H

/-- Geometric loop invariant. -/
def geom_inv (st : PackState) : Prop :=
  (∀ pal ∈ st.pallets, pal.items.Pairwise placements_separated) ∧
  st.current.items.Pairwise placements_separated ∧
  free_rects_ok st.current.items st.current.free_rects

/-- Bounds loop invariant. -/
def bounds_inv (cfg : PaletConfig) (st : PackState) : Prop :=
  (∀ pal ∈ st.pallets, ∀ p ∈ pal.items, in_bounds cfg p) ∧
  (∀ p ∈ st.current.items, in_bounds cfg p) ∧
  (∀ r ∈ st.current.free_rects, rect_in_bounds cfg r)

/-- Sum of the product weights of a list of placements. -/
def pallet_weight_sum (items : List Placement) : ℚ :=
  (items.map (fun p => p.urun.agirlik)).sum

/-- The weight field always equals the sum of the placed products' weights. -/
def weight_eq_inv (st : PackState) : Prop :=
  (∀ pal ∈ st.pallets, pal.weight = pallet_weight_sum pal.items) ∧
  st.current.weight = pallet_weight_sum st.current.items

/-- Weight cap invariant (needs every product within the cap). -/
def weight_cap_inv (cfg : PaletConfig) (st : PackState) : Prop :=
  (∀ pal ∈ st.pallets, pal.weight ≤ cfg.max_weight) ∧
  (st.current.items ≠ [] → st.current.weight ≤ cfg.max_weight) ∧
  (st.current.items = [] → st.current.weight = 0)

/-- All products recorded in the state, in order: emitted pallets first,
then the open pallet. -/
def state_products (st : PackState) : List UrunData :=
  st.pallets.flatMap (fun pal => pal.items.map Placement.urun) ++
    st.current.items.map Placement.urun

/-- Emitted pallets are never empty. -/
def nonempty_inv (st : PackState) : Prop :=
  ∀ pal ∈ st.pallets, pal.items ≠ []

def c1_urun : UrunData := ⟨1, 2, 2, 2, 5, true⟩

def c1_cfg : PaletConfig := ⟨1, 1, 1, 100⟩

def c1_urun_ok : UrunData := ⟨1, 1, 1, 1, 3, true⟩

def c1_cfg_ok : PaletConfig := ⟨10, 10, 10, 100⟩

def c2_urun : UrunData := ⟨2, 3, 3, 3, 4, true⟩

def c2_cfg : PaletConfig := ⟨2, 2, 2, 50⟩

def c3_urun : UrunData := ⟨3, 1, 1, 1, 10, true⟩

def c3_cfg : PaletConfig := ⟨10, 10, 10, 5⟩

def c3_urun_ok : UrunData := ⟨3, 1, 1, 1, 4, true⟩

def c3_cfg_ok : PaletConfig := ⟨10, 10, 10, 6⟩

def c4_urun : UrunData := ⟨4, 2, 2, 2, 1, true⟩

def c4_cfg : PaletConfig := ⟨4, 2, 2, 100⟩

def c6_urun : UrunData := ⟨6, 1, 1, 1, 1, true⟩

def c6_rect1 : FreeRectangle := ⟨0, 0, 0, 2, 2, 5⟩

def c6_rect2 : FreeRectangle := ⟨0, 0, 0, 2, 2, 1⟩

def c7_rect1 : FreeRectangle := ⟨0, 0, 0, 2, 2, 2⟩

def c7_rect2 : FreeRectangle := ⟨1, 0, 0, 1, 1, 1⟩

def c8_ra : FreeRectangle := ⟨0, 0, 0, 1, 1, 1⟩

def c8_rb : FreeRectangle := ⟨0, 0, 0, 2, 2, 2⟩

def c8_rc : FreeRectangle := ⟨0, 0, 0, 3, 3, 3⟩

def c9_urun : UrunData := ⟨9, 1, 1, 1, 3, true⟩

def c9_cfg : PaletConfig := ⟨10, 10, 10, 100⟩

def c10_urun : UrunData := ⟨10, 1, 2, 1, 7, true⟩

def c10_cfg : PaletConfig := ⟨10, 10, 10, 100⟩

lemma can_fit_iff {r : FreeRectangle} {l w h : ℚ} :
    r.can_fit l w h = true ↔ l ≤ r.length ∧ w ≤ r.width ∧ h ≤ r.height := by
  simp [FreeRectangle.can_fit, and_assoc]

lemma intersects_eq_true_iff {r : FreeRectangle} {px py pz pl pw ph : ℚ} :
    intersects_3d r px py pz pl pw ph = true ↔
      (r.x < px + pl ∧ px < r.x + r.length ∧
       r.y < py + pw ∧ py < r.y + r.width ∧
       r.z < pz + ph ∧ pz < r.z + r.height) := by
  simp [intersects_3d, not_le, and_assoc]

lemma intersects_eq_false_iff {r : FreeRectangle} {px py pz pl pw ph : ℚ} :
    intersects_3d r px py pz pl pw ph = false ↔
      rect_box_separated r px py pz pl pw ph := by
  rw [Bool.eq_false_iff, Ne, intersects_eq_true_iff, rect_box_separated]
  simp only [not_and_or, not_lt]

lemma rect_contains_iff {outer inner : FreeRectangle} :
    rect_contains outer inner = true ↔ sub_rect inner outer := by
  simp [rect_contains, sub_rect]
  tauto

/-- Membership characterization of the six guarded residual sub-cuboids. -/
lemma split_mem_iff {rect : FreeRectangle} {px py pz pl pw ph : ℚ}
    {s : FreeRectangle} :
    s ∈ split_rectangle_maximal rect px py pz pl pw ph ↔
      (rect.x < px ∧
        s = ⟨rect.x, rect.y, rect.z, px - rect.x, rect.width, rect.height⟩) ∨
      (px + pl < rect.x + rect.length ∧
        s = ⟨px + pl, rect.y, rect.z, rect.x + rect.length - (px + pl),
             rect.width, rect.height⟩) ∨
      (rect.y < py ∧
        s = ⟨rect.x, rect.y, rect.z, rect.length, py - rect.y, rect.height⟩) ∨
      (py + pw < rect.y + rect.width ∧
        s = ⟨rect.x, py + pw, rect.z, rect.length,
             rect.y + rect.width - (py + pw), rect.height⟩) ∨
      (rect.z < pz ∧
        s = ⟨rect.x, rect.y, rect.z, rect.length, rect.width, pz - rect.z⟩) ∨
      (pz + ph < rect.z + rect.height ∧
        s = ⟨rect.x, rect.y, pz + ph, rect.length, rect.width,
             rect.z + rect.height - (pz + ph)⟩) := by
  by_cases h1 : rect.x < px <;>
  by_cases h2 : px + pl < rect.x + rect.length <;>
  by_cases h3 : rect.y < py <;>
  by_cases h4 : py + pw < rect.y + rect.width <;>
  by_cases h5 : rect.z < pz <;>
  by_cases h6 : pz + ph < rect.z + rect.height <;>
  simp [split_rectangle_maximal, h1, h2, h3, h4, h5, h6, or_assoc]

/-- Every residual sub-cuboid of an intersecting rect is contained in it. -/
lemma split_sub_rect {rect : FreeRectangle} {px py pz pl pw ph : ℚ}
    (hI : intersects_3d rect px py pz pl pw ph = true) :
    ∀ s ∈ split_rectangle_maximal rect px py pz pl pw ph, sub_rect s rect := by
  rw [intersects_eq_true_iff] at hI
  obtain ⟨h1, h2, h3, h4, h5, h6⟩ := hI
  intro s hs
  rcases split_mem_iff.1 hs with ⟨hg, rfl⟩ | ⟨hg, rfl⟩ | ⟨hg, rfl⟩ |
    ⟨hg, rfl⟩ | ⟨hg, rfl⟩ | ⟨hg, rfl⟩ <;>
    exact ⟨by dsimp; linarith, by dsimp; linarith, by dsimp; linarith,
           by dsimp; linarith, by dsimp; linarith, by dsimp; linarith⟩

/-- Every residual sub-cuboid is separated from the placed box. -/
lemma split_box_separated {rect : FreeRectangle} {px py pz pl pw ph : ℚ} :
    ∀ s ∈ split_rectangle_maximal rect px py pz pl pw ph,
      rect_box_separated s px py pz pl pw ph := by
  intro s hs
  rcases split_mem_iff.1 hs with ⟨hg, rfl⟩ | ⟨hg, rfl⟩ | ⟨hg, rfl⟩ |
    ⟨hg, rfl⟩ | ⟨hg, rfl⟩ | ⟨hg, rfl⟩
  · exact Or.inr (Or.inl (by dsimp; linarith))
  · exact Or.inl (by dsimp; linarith)
  · exact Or.inr (Or.inr (Or.inr (Or.inl (by dsimp; linarith))))
  · exact Or.inr (Or.inr (Or.inl (by dsimp; linarith)))
  · exact Or.inr (Or.inr (Or.inr (Or.inr (Or.inr (by dsimp; linarith)))))
  · exact Or.inr (Or.inr (Or.inr (Or.inr (Or.inl (by dsimp; linarith)))))

/-- Separation from a box transfers to any sub-rect. -/
lemma sub_rect_separated {s r : FreeRectangle} {bx qy qz bl bw bh : ℚ}
    (hsub : sub_rect s r) (hsep : rect_box_separated r bx qy qz bl bw bh) :
    rect_box_separated s bx qy qz bl bw bh := by
  obtain ⟨c1, c2, c3, c4, c5, c6⟩ := hsub
  rcases hsep with h | h | h | h | h | h
  · exact Or.inl (by linarith)
  · exact Or.inr (Or.inl (by linarith))
  · exact Or.inr (Or.inr (Or.inl (by linarith)))
  · exact Or.inr (Or.inr (Or.inr (Or.inl (by linarith))))
  · exact Or.inr (Or.inr (Or.inr (Or.inr (Or.inl (by linarith)))))
  · exact Or.inr (Or.inr (Or.inr (Or.inr (Or.inr (by linarith)))))

/-- Bounds transfer to any sub-rect. -/
lemma sub_rect_in_bounds {cfg : PaletConfig} {s r : FreeRectangle}
    (hsub : sub_rect s r) (hb : rect_in_bounds cfg r) :
    rect_in_bounds cfg s := by
  obtain ⟨c1, c2, c3, c4, c5, c6⟩ := hsub
  obtain ⟨b1, b2, b3, b4, b5, b6⟩ := hb
  exact ⟨by linarith, by linarith, by linarith, by linarith, by linarith, by linarith⟩

/-- Membership in the split phase of a placement. -/
lemma mem_update_free_rects {rects : List FreeRectangle}
    {px py pz pl pw ph : ℚ} {s : FreeRectangle} :
    s ∈ update_free_rects rects px py pz pl pw ph ↔
      ∃ r ∈ rects,
        (intersects_3d r px py pz pl pw ph = true ∧
          s ∈ split_rectangle_maximal r px py pz pl pw ph) ∨
        (intersects_3d r px py pz pl pw ph = false ∧ s = r) := by
  constructor
  · intro hs
    rcases List.mem_flatMap.1 hs with ⟨r, hr, hmem⟩
    by_cases hI : intersects_3d r px py pz pl pw ph = true
    · exact ⟨r, hr, Or.inl ⟨hI, by simpa [hI] using hmem⟩⟩
    · have hI2 : intersects_3d r px py pz pl pw ph = false :=
        Bool.eq_false_iff.2 hI
      refine ⟨r, hr, Or.inr ⟨hI2, ?_⟩⟩
      simpa [hI2] using hmem
  · rintro ⟨r, hr, ⟨hI, hmem⟩ | ⟨hI, rfl⟩⟩
    · exact List.mem_flatMap.2 ⟨r, hr, by simpa [hI] using hmem⟩
    · exact List.mem_flatMap.2 ⟨s, hr, by simp [hI]⟩

/-- Every rect surviving the split phase is separated from the placed box. -/
lemma update_free_rects_separated {rects : List FreeRectangle}
    {px py pz pl pw ph : ℚ} {s : FreeRectangle}
    (hs : s ∈ update_free_rects rects px py pz pl pw ph) :
    rect_box_separated s px py pz pl pw ph := by
  rcases mem_update_free_rects.1 hs with ⟨r, _, ⟨hI, hmem⟩ | ⟨hI, rfl⟩⟩
  · exact split_box_separated s hmem
  · exact intersects_eq_false_iff.1 hI

/-- Pruning only removes rects. -/
lemma remove_redundant_subset {rects : List FreeRectangle} {s : FreeRectangle}
    (hs : s ∈ remove_redundant_rectangles rects) : s ∈ rects := by
  rcases List.mem_map.1 hs with ⟨p, hp, rfl⟩
  have hpe : p ∈ rects.enum := (List.mem_filter.1 hp).1
  have hg := List.mem_enum_iff_getElem?.1 hpe
  rcases List.getElem?_eq_some_iff.1 hg with ⟨hi, hEq⟩
  exact hEq ▸ List.getElem_mem hi

/-- Membership in a candidate pair list. -/
lemma mem_candidate_pairs {orients : List (ℚ × ℚ × ℚ)}
    {rects : List FreeRectangle} {c : (ℚ × ℚ × ℚ) × FreeRectangle} :
    c ∈ candidate_pairs orients rects ↔ c.1 ∈ orients ∧ c.2 ∈ rects := by
  obtain ⟨d, r⟩ := c
  simp [candidate_pairs, List.mem_flatMap]

/-!
## The best-fit search: characterization of the fold
-/

lemma search_inv_step {processed : List ((ℚ × ℚ × ℚ) × FreeRectangle)}
    {acc : Option (((ℚ × ℚ × ℚ) × FreeRectangle) × ℚ)}
    (h : search_inv processed acc)
    (c : (ℚ × ℚ × ℚ) × FreeRectangle) :
    search_inv (processed ++ [c]) (best_fit_step acc c) := by
  by_cases hf : cand_fits c = true
  · rcases h with ⟨hacc, hall⟩ | ⟨b, s, l1, l2, hacc, hbf, hbs, hsplit, hl1, hl2⟩
    · subst hacc
      refine Or.inr ⟨c, cand_score c, processed, [], ?_, hf, rfl, rfl, ?_, ?_⟩
      · simp [best_fit_step, hf]
      · intro d hd hdf
        exact absurd (hall d hd) (by simp [hdf])
      · intro d hd
        simp at hd
    · subst hacc
      by_cases hlt : cand_score c < s
      · refine Or.inr ⟨c, cand_score c, processed, [], ?_, hf, rfl, rfl, ?_, ?_⟩
        · simp [best_fit_step, hf, hlt]
        · intro d hd hdf
          subst hsplit
          rcases List.mem_append.1 hd with hd1 | hd2
          · exact lt_trans hlt (hbs ▸ hl1 d hd1 hdf)
          · rcases List.mem_cons.1 hd2 with rfl | hd3
            · exact hbs ▸ hlt
            · exact lt_of_lt_of_le hlt (hbs ▸ hl2 d hd3 hdf)
        · intro d hd
          simp at hd
      · refine Or.inr ⟨b, s, l1, l2 ++ [c], ?_, hbf, hbs, ?_, hl1, ?_⟩
        · simp [best_fit_step, hf, hlt]
        · subst hsplit
          simp
        · intro d hd hdf
          rcases List.mem_append.1 hd with hd1 | hd2
          · exact hl2 d hd1 hdf
          · rcases List.mem_singleton.1 hd2 with rfl
            exact not_lt.1 hlt
  · have hf2 : cand_fits c = false := Bool.eq_false_iff.2 hf
    have hstep : best_fit_step acc c = acc := by
      simp [best_fit_step, hf2]
    rw [hstep]
    rcases h with ⟨hacc, hall⟩ | ⟨b, s, l1, l2, hacc, hbf, hbs, hsplit, hl1, hl2⟩
    · refine Or.inl ⟨hacc, ?_⟩
      intro d hd
      rcases List.mem_append.1 hd with hd1 | hd2
      · exact hall d hd1
      · rcases List.mem_singleton.1 hd2 with rfl
        exact hf2
    · refine Or.inr ⟨b, s, l1, l2 ++ [c], hacc, hbf, hbs, ?_, hl1, ?_⟩
      · subst hsplit
        simp
      · intro d hd hdf
        rcases List.mem_append.1 hd with hd1 | hd2
        · exact hl2 d hd1 hdf
        · rcases List.mem_singleton.1 hd2 with rfl
          exact absurd hdf (by simp [hf2])

lemma search_inv_foldl (l : List ((ℚ × ℚ × ℚ) × FreeRectangle)) :
    ∀ (processed : List ((ℚ × ℚ × ℚ) × FreeRectangle))
      (acc : Option (((ℚ × ℚ × ℚ) × FreeRectangle) × ℚ)),
      search_inv processed acc →
      search_inv (processed ++ l) (l.foldl best_fit_step acc) := by
  induction l with
  | nil => intro processed acc h; simpa using h
  | cons c l ih =>
      intro processed acc h
      have h2 := search_inv_step h c
      have h3 := ih (processed ++ [c]) (best_fit_step acc c) h2
      simpa using h3

/-- Full characterization of the fold over the whole candidate list. -/
lemma search_inv_result (l : List ((ℚ × ℚ × ℚ) × FreeRectangle)) :
    search_inv l (l.foldl best_fit_step none) := by
  have h0 : search_inv [] none := Or.inl ⟨rfl, by intro c hc; simp at hc⟩
  simpa using search_inv_foldl l [] none h0

/-- If the search returns a candidate, it fits, comes from the candidate
list, carries its own score, and that score is minimal among all fitting
candidates. -/
lemma best_fit_search_some {orients : List (ℚ × ℚ × ℚ)}
    {rects : List FreeRectangle}
    {b : (ℚ × ℚ × ℚ) × FreeRectangle} {s : ℚ}
    (h : best_fit_search orients rects = some (b, s)) :
    b ∈ candidate_pairs orients rects ∧ cand_fits b = true ∧
      s = cand_score b ∧
      ∀ c ∈ candidate_pairs orients rects, cand_fits c = true →
        s ≤ cand_score c := by
  have hinv := search_inv_result (candidate_pairs orients rects)
  rw [best_fit_search] at h
  rcases hinv with ⟨hacc, _⟩ | ⟨b2, s2, l1, l2, hacc, hbf, hbs, hsplit, hl1, hl2⟩
  · rw [h] at hacc; cases hacc
  · rw [h] at hacc
    injection hacc with hacc
    rw [Prod.mk.injEq] at hacc
    obtain ⟨rfl, rfl⟩ := hacc
    refine ⟨by rw [hsplit]; simp, hbf, hbs, ?_⟩
    intro c hc hcf
    rw [hsplit] at hc
    rcases List.mem_append.1 hc with hc1 | hc2
    · exact le_of_lt (hl1 c hc1 hcf)
    · rcases List.mem_cons.1 hc2 with rfl | hc3
      · exact le_of_eq hbs
      · exact hl2 c hc3 hcf

/-- If the search comes back empty, no candidate fits. -/
lemma best_fit_search_none {orients : List (ℚ × ℚ × ℚ)}
    {rects : List FreeRectangle}
    (h : best_fit_search orients rects = none) :
    ∀ c ∈ candidate_pairs orients rects, cand_fits c = false := by
  have hinv := search_inv_result (candidate_pairs orients rects)
  rw [best_fit_search] at h
  rcases hinv with ⟨_, hall⟩ | ⟨b2, s2, l1, l2, hacc, _⟩
  · exact hall
  · rw [h] at hacc; cases hacc

/-- Generic preservation of a predicate along a left fold. -/
lemma foldl_preserve {σ α : Type} (f : σ → α → σ) (P : σ → Prop) :
    ∀ (l : List α) (s : σ), P s → (∀ t a, a ∈ l → P t → P (f t a)) →
      P (l.foldl f s) := by
  intro l
  induction l with
  | nil => intro s h _; exact h
  | cons a l ih =>
      intro s h hstep
      exact ih (f s a) (hstep s a (List.mem_cons_self a l) h)
        (fun t b hb ht => hstep t b (List.mem_cons_of_mem a hb) ht)

/-!
## State-machine structure lemmas
-/

lemma emit_current (st : PackState) (cfg : PaletConfig) :
    (emit_if_nonempty st cfg).current = fresh_current cfg := by
  unfold emit_if_nonempty
  split <;> rfl

lemma emit_idem (st : PackState) (cfg : PaletConfig) :
    emit_if_nonempty (emit_if_nonempty st cfg) cfg = emit_if_nonempty st cfg := by
  by_cases h : st.current.items = []
  · simp [emit_if_nonempty, h, fresh_current]
  · simp [emit_if_nonempty, h, fresh_current]

lemma emit_pallets_cases (st : PackState) (cfg : PaletConfig) :
    (emit_if_nonempty st cfg).pallets = st.pallets ∨
      (st.current.items ≠ [] ∧
        (emit_if_nonempty st cfg).pallets =
          st.pallets ++ [⟨st.current.items, st.current.weight⟩]) := by
  by_cases h : st.current.items = []
  · exact Or.inl (by simp [emit_if_nonempty, h])
  · exact Or.inr ⟨h, by simp [emit_if_nonempty, h]⟩

/-- Case analysis on one step of the packer loop: either the item is placed
into a rect found by the search on the current (or freshly reopened)
pallet, or nothing fits the fresh pallet either and the item is
force-placed at the origin of the fresh pallet with the first
orientation. -/
lemma pack_step_elim (cfg : PaletConfig) (st : PackState) (urun : UrunData)
    (P : PackState → Prop)
    (hplace : ∀ st1 c s,
      ((st1 = st ∧ ¬ cfg.max_weight < st.current.weight + urun.agirlik) ∨
        st1 = emit_if_nonempty st cfg) →
      best_fit_search (possible_orientations_for urun)
        st1.current.free_rects = some (c, s) →
      P (place_item st1 urun c.2 c.1))
    (hforce :
      best_fit_search (possible_orientations_for urun)
        (initial_free_rects cfg) = none →
      P (place_item (emit_if_nonempty st cfg) urun
          ⟨0, 0, 0, cfg.length, cfg.width, cfg.height⟩
          ((possible_orientations_for urun).headD
            (urun.boy, urun.en, urun.yukseklik)))) :
    P (pack_step cfg st urun) := by
  unfold pack_step
  dsimp only
  by_cases hw : cfg.max_weight < st.current.weight + urun.agirlik
  · simp only [if_pos hw]
    cases hs1 : best_fit_search (possible_orientations_for urun)
        (emit_if_nonempty st cfg).current.free_rects with
    | some v =>
        obtain ⟨c, s⟩ := v
        exact hplace _ c s (Or.inr rfl) hs1
    | none =>
        rw [emit_idem]
        cases hs2 : best_fit_search (possible_orientations_for urun)
            (emit_if_nonempty st cfg).current.free_rects with
        | some v =>
            obtain ⟨c, s⟩ := v
            exact hplace _ c s (Or.inr rfl) hs2
        | none =>
            have hfr : (emit_if_nonempty st cfg).current.free_rects =
                initial_free_rects cfg := by
              rw [emit_current]; rfl
            rw [hfr] at hs2 ⊢
            have hd : (initial_free_rects cfg).headD
                ⟨0, 0, 0, cfg.length, cfg.width, cfg.height⟩ =
                ⟨0, 0, 0, cfg.length, cfg.width, cfg.height⟩ := rfl
            rw [hd]
            exact hforce hs2
  · simp only [if_neg hw]
    cases hs1 : best_fit_search (possible_orientations_for urun)
        st.current.free_rects with
    | some v =>
        obtain ⟨c, s⟩ := v
        exact hplace st c s (Or.inl ⟨rfl, hw⟩) hs1
    | none =>
        cases hs2 : best_fit_search (possible_orientations_for urun)
            (emit_if_nonempty st cfg).current.free_rects with
        | some v =>
            obtain ⟨c, s⟩ := v
            exact hplace _ c s (Or.inr rfl) hs2
        | none =>
            have hfr : (emit_if_nonempty st cfg).current.free_rects =
                initial_free_rects cfg := by
              rw [emit_current]; rfl
            rw [hfr] at hs2 ⊢
            have hd : (initial_free_rects cfg).headD
                ⟨0, 0, 0, cfg.length, cfg.width, cfg.height⟩ =
                ⟨0, 0, 0, cfg.length, cfg.width, cfg.height⟩ := rfl
            rw [hd]
            exact hforce hs2

/-!
## Geometric invariant: free rects never meet already placed boxes
-/

lemma geom_inv_initial (cfg : PaletConfig) : geom_inv (initial_state cfg) := by
  refine ⟨?_, ?_, ?_⟩
  · intro pal hpal
    simp [initial_state] at hpal
  · simp [initial_state, fresh_current]
  · intro r _ p hp
    simp [initial_state, fresh_current] at hp

lemma geom_inv_emit {st : PackState} (cfg : PaletConfig) (h : geom_inv st) :
    geom_inv (emit_if_nonempty st cfg) := by
  obtain ⟨hpal, hcur, _⟩ := h
  unfold emit_if_nonempty
  split
  · exact ⟨hpal, by simp [fresh_current], by intro r _ p hp; simp [fresh_current] at hp⟩
  · refine ⟨?_, by simp [fresh_current], by intro r _ p hp; simp [fresh_current] at hp⟩
    intro pal hp
    rcases List.mem_append.1 hp with h1 | h2
    · exact hpal pal h1
    · rcases List.mem_singleton.1 h2 with rfl
      exact hcur

lemma separated_of_rect {r : FreeRectangle} {q np : Placement}
    (hq : rect_box_separated r q.x q.y q.z q.L q.W q.H)
    (h1 : r.x ≤ np.x) (h2 : np.x + np.L ≤ r.x + r.length)
    (h3 : r.y ≤ np.y) (h4 : np.y + np.W ≤ r.y + r.width)
    (h5 : r.z ≤ np.z) (h6 : np.z + np.H ≤ r.z + r.height) :
    placements_separated q np := by
  rcases hq with h | h | h | h | h | h
  · exact Or.inl (by linarith)
  · exact Or.inr (Or.inl (by linarith))
  · exact Or.inr (Or.inr (Or.inl (by linarith)))
  · exact Or.inr (Or.inr (Or.inr (Or.inl (by linarith))))
  · exact Or.inr (Or.inr (Or.inr (Or.inr (Or.inl (by linarith)))))
  · exact Or.inr (Or.inr (Or.inr (Or.inr (Or.inr (by linarith)))))

lemma place_item_geom {st : PackState} {urun : UrunData}
    {rect : FreeRectangle} {dims : ℚ × ℚ × ℚ}
    (h : geom_inv st)
    (hnew : ∀ q ∈ st.current.items,
      placements_separated q
        ⟨urun, rect.x, rect.y, rect.z, dims.1, dims.2.1, dims.2.2⟩) :
    geom_inv (place_item st urun rect dims) := by
  obtain ⟨hpal, hcur, hfrok⟩ := h
  refine ⟨hpal, ?_, ?_⟩
  · refine List.pairwise_append.2 ⟨hcur, by simp, ?_⟩
    intro a ha b hb
    rcases List.mem_singleton.1 hb with rfl
    exact hnew a ha
  · intro s hs p hp
    have hs2 := remove_redundant_subset hs
    rcases List.mem_append.1 hp with hpo | hpn
    · rcases mem_update_free_rects.1 hs2 with ⟨r, hr, ⟨hI, hmem⟩ | ⟨hI, rfl⟩⟩
      · exact sub_rect_separated (split_sub_rect hI s hmem) (hfrok r hr p hpo)
      · exact hfrok s hr p hpo
    · rcases List.mem_singleton.1 hpn with rfl
      exact update_free_rects_separated hs2

lemma pack_step_geom (cfg : PaletConfig) (st : PackState) (urun : UrunData)
    (h : geom_inv st) : geom_inv (pack_step cfg st urun) := by
  apply pack_step_elim
  · intro st1 c s hst1 hsearch
    have h1 : geom_inv st1 := by
      rcases hst1 with ⟨rfl, _⟩ | rfl
      · exact h
      · exact geom_inv_emit cfg h
    obtain ⟨hmem, hfits, _, _⟩ := best_fit_search_some hsearch
    have hrect : c.2 ∈ st1.current.free_rects := (mem_candidate_pairs.1 hmem).2
    obtain ⟨hl, hw2, hh⟩ := can_fit_iff.1 hfits
    apply place_item_geom h1
    intro q hq
    exact separated_of_rect (h1.2.2 c.2 hrect q hq)
      (le_refl _) (by dsimp; linarith) (le_refl _) (by dsimp; linarith)
      (le_refl _) (by dsimp; linarith)
  · intro _
    apply place_item_geom (geom_inv_emit cfg h)
    intro q hq
    rw [emit_current] at hq
    simp [fresh_current] at hq

lemma pack_geom (urunler : List UrunData) (cfg : PaletConfig) :
    ∀ pal ∈ pack_maximal_rectangles urunler cfg,
      pal.items.Pairwise placements_separated := by
  have hinv : geom_inv (urunler.foldl (pack_step cfg) (initial_state cfg)) :=
    foldl_preserve _ geom_inv urunler _ (geom_inv_initial cfg)
      (fun t a _ ht => pack_step_geom cfg t a ht)
  intro pal hpal
  unfold pack_maximal_rectangles at hpal
  dsimp only at hpal
  by_cases hc : (urunler.foldl (pack_step cfg) (initial_state cfg)).current.items = []
  · rw [if_pos hc] at hpal
    exact hinv.1 pal hpal
  · rw [if_neg hc] at hpal
    rcases List.mem_append.1 hpal with h1 | h2
    · exact hinv.1 pal h1
    · rcases List.mem_singleton.1 h2 with rfl
      exact hinv.2.1

/-!
## Bounds invariant (holds when every product fits an empty pallet)
-/

lemma initial_rect_in_bounds (cfg : PaletConfig) :
    rect_in_bounds cfg ⟨0, 0, 0, cfg.length, cfg.width, cfg.height⟩ := by
  refine ⟨le_refl 0, ?_, le_refl 0, ?_, le_refl 0, ?_⟩ <;> dsimp <;> linarith

lemma bounds_inv_initial (cfg : PaletConfig) : bounds_inv cfg (initial_state cfg) := by
  refine ⟨?_, ?_, ?_⟩
  · intro pal hpal
    simp [initial_state] at hpal
  · intro p hp
    simp [initial_state, fresh_current] at hp
  · intro r hr
    simp only [initial_state, fresh_current, initial_free_rects,
      List.mem_singleton] at hr
    exact hr ▸ initial_rect_in_bounds cfg

lemma bounds_inv_emit {cfg : PaletConfig} {st : PackState}
    (h : bounds_inv cfg st) : bounds_inv cfg (emit_if_nonempty st cfg) := by
  obtain ⟨hpal, hcur, _⟩ := h
  unfold emit_if_nonempty
  split
  · refine ⟨hpal, ?_, ?_⟩
    · intro p hp; simp [fresh_current] at hp
    · intro r hr
      simp only [fresh_current, initial_free_rects, List.mem_singleton] at hr
      exact hr ▸ initial_rect_in_bounds cfg
  · refine ⟨?_, ?_, ?_⟩
    · intro pal hp
      rcases List.mem_append.1 hp with h1 | h2
      · exact hpal pal h1
      · rcases List.mem_singleton.1 h2 with rfl
        exact hcur
    · intro p hp; simp [fresh_current] at hp
    · intro r hr
      simp only [fresh_current, initial_free_rects, List.mem_singleton] at hr
      exact hr ▸ initial_rect_in_bounds cfg

lemma place_item_bounds {cfg : PaletConfig} {st : PackState} {urun : UrunData}
    {rect : FreeRectangle} {dims : ℚ × ℚ × ℚ}
    (h : bounds_inv cfg st)
    (hrect : rect_in_bounds cfg rect)
    (hfit : dims.1 ≤ rect.length ∧ dims.2.1 ≤ rect.width ∧ dims.2.2 ≤ rect.height) :
    bounds_inv cfg (place_item st urun rect dims) := by
  obtain ⟨hpal, hcur, hrects⟩ := h
  obtain ⟨b1, b2, b3, b4, b5, b6⟩ := hrect
  refine ⟨hpal, ?_, ?_⟩
  · intro p hp
    rcases List.mem_append.1 hp with h1 | h2
    · exact hcur p h1
    · rcases List.mem_singleton.1 h2 with rfl
      exact ⟨b1, by dsimp; linarith [hfit.1], b3, by dsimp; linarith [hfit.2.1],
             b5, by dsimp; linarith [hfit.2.2]⟩
  · intro s hs
    have hs2 := remove_redundant_subset hs
    rcases mem_update_free_rects.1 hs2 with ⟨r, hr, ⟨hI, hmem⟩ | ⟨hI, rfl⟩⟩
    · exact sub_rect_in_bounds (split_sub_rect hI s hmem) (hrects r hr)
    · exact hrects s hr

lemma pack_step_bounds {cfg : PaletConfig} {st : PackState} {urun : UrunData}
    (hu : fits_empty_pallet cfg urun)
    (h : bounds_inv cfg st) : bounds_inv cfg (pack_step cfg st urun) := by
  apply pack_step_elim
  · intro st1 c s hst1 hsearch
    have h1 : bounds_inv cfg st1 := by
      rcases hst1 with ⟨rfl, _⟩ | rfl
      · exact h
      · exact bounds_inv_emit h
    obtain ⟨hmem, hfits, _, _⟩ := best_fit_search_some hsearch
    exact place_item_bounds h1
      (h1.2.2 c.2 (mem_candidate_pairs.1 hmem).2) (can_fit_iff.1 hfits)
  · intro hnone
    exfalso
    obtain ⟨d, hd, h1, h2, h3⟩ := hu
    have hc : (d, (⟨0, 0, 0, cfg.length, cfg.width, cfg.height⟩ : FreeRectangle)) ∈
        candidate_pairs (possible_orientations_for urun) (initial_free_rects cfg) := by
      rw [mem_candidate_pairs]
      exact ⟨hd, by simp [initial_free_rects]⟩
    have := best_fit_search_none hnone _ hc
    rw [cand_fits] at this
    have hfits : FreeRectangle.can_fit ⟨0, 0, 0, cfg.length, cfg.width, cfg.height⟩
        d.1 d.2.1 d.2.2 = true := can_fit_iff.2 ⟨h1, h2, h3⟩
    rw [hfits] at this
    cases this

lemma pack_bounds (urunler : List UrunData) (cfg : PaletConfig)
    (h : ∀ u ∈ urunler, fits_empty_pallet cfg u) :
    ∀ pal ∈ pack_maximal_rectangles urunler cfg, ∀ p ∈ pal.items,
      in_bounds cfg p := by
  have hinv : bounds_inv cfg (urunler.foldl (pack_step cfg) (initial_state cfg)) :=
    foldl_preserve _ (bounds_inv cfg) urunler _ (bounds_inv_initial cfg)
      (fun t a ha ht => pack_step_bounds (h a ha) ht)
  intro pal hpal
  unfold pack_maximal_rectangles at hpal
  dsimp only at hpal
  by_cases hc : (urunler.foldl (pack_step cfg) (initial_state cfg)).current.items = []
  · rw [if_pos hc] at hpal
    exact hinv.1 pal hpal
  · rw [if_neg hc] at hpal
    rcases List.mem_append.1 hpal with h1 | h2
    · exact hinv.1 pal h1
    · rcases List.mem_singleton.1 h2 with rfl
      exact hinv.2.1

/-!
## Weight bookkeeping, conservation, nonemptiness
-/

lemma weight_eq_initial (cfg : PaletConfig) : weight_eq_inv (initial_state cfg) := by
  constructor
  · intro pal hpal
    simp [initial_state] at hpal
  · simp [initial_state, fresh_current, pallet_weight_sum]

lemma weight_eq_emit {st : PackState} (cfg : PaletConfig)
    (h : weight_eq_inv st) : weight_eq_inv (emit_if_nonempty st cfg) := by
  obtain ⟨hpal, hcur⟩ := h
  unfold emit_if_nonempty
  split
  · exact ⟨hpal, by simp [fresh_current, pallet_weight_sum]⟩
  · refine ⟨?_, by simp [fresh_current, pallet_weight_sum]⟩
    intro pal hp
    rcases List.mem_append.1 hp with h1 | h2
    · exact hpal pal h1
    · rcases List.mem_singleton.1 h2 with rfl
      exact hcur

lemma place_item_weight_eq {st : PackState} {urun : UrunData}
    {rect : FreeRectangle} {dims : ℚ × ℚ × ℚ}
    (h : weight_eq_inv st) : weight_eq_inv (place_item st urun rect dims) := by
  obtain ⟨hpal, hcur⟩ := h
  refine ⟨hpal, ?_⟩
  simp [place_item, pallet_weight_sum] at hcur ⊢
  rw [hcur]

lemma pack_step_weight_eq (cfg : PaletConfig) (st : PackState) (urun : UrunData)
    (h : weight_eq_inv st) : weight_eq_inv (pack_step cfg st urun) := by
  apply pack_step_elim
  · intro st1 c s hst1 _
    have h1 : weight_eq_inv st1 := by
      rcases hst1 with ⟨rfl, _⟩ | rfl
      · exact h
      · exact weight_eq_emit cfg h
    exact place_item_weight_eq h1
  · intro _
    exact place_item_weight_eq (weight_eq_emit cfg h)

lemma pack_weight_eq (urunler : List UrunData) (cfg : PaletConfig) :
    ∀ pal ∈ pack_maximal_rectangles urunler cfg,
      pal.weight = pallet_weight_sum pal.items := by
  have hinv : weight_eq_inv (urunler.foldl (pack_step cfg) (initial_state cfg)) :=
    foldl_preserve _ weight_eq_inv urunler _ (weight_eq_initial cfg)
      (fun t a _ ht => pack_step_weight_eq cfg t a ht)
  intro pal hpal
  unfold pack_maximal_rectangles at hpal
  dsimp only at hpal
  by_cases hc : (urunler.foldl (pack_step cfg) (initial_state cfg)).current.items = []
  · rw [if_pos hc] at hpal
    exact hinv.1 pal hpal
  · rw [if_neg hc] at hpal
    rcases List.mem_append.1 hpal with h1 | h2
    · exact hinv.1 pal h1
    · rcases List.mem_singleton.1 h2 with rfl
      exact hinv.2

lemma weight_cap_initial (cfg : PaletConfig) : weight_cap_inv cfg (initial_state cfg) := by
  refine ⟨?_, ?_, ?_⟩
  · intro pal hpal
    simp [initial_state] at hpal
  · intro hne
    simp [initial_state, fresh_current] at hne
  · intro _
    simp [initial_state, fresh_current]

lemma weight_cap_emit {cfg : PaletConfig} {st : PackState}
    (h : weight_cap_inv cfg st) : weight_cap_inv cfg (emit_if_nonempty st cfg) := by
  obtain ⟨hpal, hcur, _⟩ := h
  unfold emit_if_nonempty
  split
  case isTrue he =>
    exact ⟨hpal, by intro hne; simp [fresh_current] at hne, by intro _; simp [fresh_current]⟩
  case isFalse he =>
    refine ⟨?_, by intro hne; simp [fresh_current] at hne, by intro _; simp [fresh_current]⟩
    intro pal hp
    rcases List.mem_append.1 hp with h1 | h2
    · exact hpal pal h1
    · rcases List.mem_singleton.1 h2 with rfl
      exact hcur he

lemma pack_step_weight_cap {cfg : PaletConfig} {st : PackState} {urun : UrunData}
    (hu : urun.agirlik ≤ cfg.max_weight)
    (h : weight_cap_inv cfg st) : weight_cap_inv cfg (pack_step cfg st urun) := by
  apply pack_step_elim
  · intro st1 c s hst1 _
    have hw1 : st1.current.weight + urun.agirlik ≤ cfg.max_weight := by
      rcases hst1 with ⟨rfl, hw⟩ | rfl
      · exact not_lt.1 hw
      · rw [emit_current]
        have : (fresh_current cfg).weight = 0 := rfl
        rw [this, zero_add]
        exact hu
    have h1 : weight_cap_inv cfg st1 := by
      rcases hst1 with ⟨rfl, _⟩ | rfl
      · exact h
      · exact weight_cap_emit h
    refine ⟨h1.1, ?_, ?_⟩
    · intro _
      exact hw1
    · intro hemp
      simp [place_item] at hemp
  · intro _
    have h2 : weight_cap_inv cfg (emit_if_nonempty st cfg) := weight_cap_emit h
    have hw1 : (emit_if_nonempty st cfg).current.weight + urun.agirlik ≤
        cfg.max_weight := by
      rw [emit_current]
      have : (fresh_current cfg).weight = 0 := rfl
      rw [this, zero_add]
      exact hu
    refine ⟨h2.1, ?_, ?_⟩
    · intro _
      exact hw1
    · intro hemp
      simp [place_item] at hemp

lemma pack_weight_cap (urunler : List UrunData) (cfg : PaletConfig)
    (h : ∀ u ∈ urunler, u.agirlik ≤ cfg.max_weight) :
    ∀ pal ∈ pack_maximal_rectangles urunler cfg,
      pal.weight ≤ cfg.max_weight := by
  have hinv : weight_cap_inv cfg
      (urunler.foldl (pack_step cfg) (initial_state cfg)) :=
    foldl_preserve _ (weight_cap_inv cfg) urunler _ (weight_cap_initial cfg)
      (fun t a ha ht => pack_step_weight_cap (h a ha) ht)
  intro pal hpal
  unfold pack_maximal_rectangles at hpal
  dsimp only at hpal
  by_cases hc : (urunler.foldl (pack_step cfg) (initial_state cfg)).current.items = []
  · rw [if_pos hc] at hpal
    exact hinv.1 pal hpal
  · rw [if_neg hc] at hpal
    rcases List.mem_append.1 hpal with h1 | h2
    · exact hinv.1 pal h1
    · rcases List.mem_singleton.1 h2 with rfl
      exact hinv.2.1 hc

lemma emit_products (st : PackState) (cfg : PaletConfig) :
    state_products (emit_if_nonempty st cfg) = state_products st := by
  unfold emit_if_nonempty state_products
  split
  case isTrue he =>
    simp [fresh_current, he]
  case isFalse he =>
    simp [fresh_current]

lemma place_products (st : PackState) (urun : UrunData)
    (rect : FreeRectangle) (dims : ℚ × ℚ × ℚ) :
    state_products (place_item st urun rect dims) =
      state_products st ++ [urun] := by
  simp [place_item, state_products]

lemma pack_step_products (cfg : PaletConfig) (st : PackState) (urun : UrunData) :
    state_products (pack_step cfg st urun) = state_products st ++ [urun] := by
  apply pack_step_elim cfg st urun
    (fun st2 => state_products st2 = state_products st ++ [urun])
  · intro st1 c s hst1 _
    rcases hst1 with ⟨rfl, _⟩ | rfl
    · exact place_products st1 urun c.2 c.1
    · rw [place_products, emit_products]
  · intro _
    rw [place_products, emit_products]

lemma foldl_products (cfg : PaletConfig) :
    ∀ (l : List UrunData) (st : PackState),
      state_products (l.foldl (pack_step cfg) st) = state_products st ++ l := by
  intro l
  induction l with
  | nil => intro st; simp
  | cons a l ih =>
      intro st
      rw [List.foldl_cons, ih, pack_step_products]
      simp

lemma pack_products (urunler : List UrunData) (cfg : PaletConfig) :
    (pack_maximal_rectangles urunler cfg).flatMap
      (fun pal => pal.items.map Placement.urun) = urunler := by
  have hfold := foldl_products cfg urunler (initial_state cfg)
  have hinit : state_products (initial_state cfg) = [] := by
    simp [state_products, initial_state, fresh_current]
  rw [hinit, List.nil_append] at hfold
  unfold pack_maximal_rectangles
  dsimp only
  by_cases hc : (urunler.foldl (pack_step cfg) (initial_state cfg)).current.items = []
  · rw [if_pos hc]
    rw [state_products, hc] at hfold
    simpa using hfold
  · rw [if_neg hc]
    rw [state_products] at hfold
    simp only [List.flatMap_append, List.flatMap_singleton] at hfold ⊢
    simpa using hfold

lemma nonempty_emit {st : PackState} (cfg : PaletConfig)
    (h : nonempty_inv st) : nonempty_inv (emit_if_nonempty st cfg) := by
  unfold emit_if_nonempty
  split
  case isTrue he => exact h
  case isFalse he =>
    intro pal hp
    rcases List.mem_append.1 hp with h1 | h2
    · exact h pal h1
    · rcases List.mem_singleton.1 h2 with rfl
      exact he

lemma pack_step_nonempty (cfg : PaletConfig) (st : PackState) (urun : UrunData)
    (h : nonempty_inv st) : nonempty_inv (pack_step cfg st urun) := by
  apply pack_step_elim
  · intro st1 c s hst1 _
    have h1 : nonempty_inv st1 := by
      rcases hst1 with ⟨rfl, _⟩ | rfl
      · exact h
      · exact nonempty_emit cfg h
    exact h1
  · intro _
    exact nonempty_emit cfg h

lemma pack_nonempty (urunler : List UrunData) (cfg : PaletConfig) :
    ∀ pal ∈ pack_maximal_rectangles urunler cfg, pal.items ≠ [] := by
  have hinv : nonempty_inv (urunler.foldl (pack_step cfg) (initial_state cfg)) :=
    foldl_preserve _ nonempty_inv urunler _
      (by intro pal hpal; simp [initial_state] at hpal)
      (fun t a _ ht => pack_step_nonempty cfg t a ht)
  intro pal hpal
  unfold pack_maximal_rectangles at hpal
  dsimp only at hpal
  by_cases hc : (urunler.foldl (pack_step cfg) (initial_state cfg)).current.items = []
  · rw [if_pos hc] at hpal
    exact hinv pal hpal
  · rw [if_neg hc] at hpal
    rcases List.mem_append.1 hpal with h1 | h2
    · exact hinv pal h1
    · rcases List.mem_singleton.1 h2 with rfl
      exact hc

lemma pack_empty_input (cfg : PaletConfig) :
    pack_maximal_rectangles [] cfg = [] := by
  simp [pack_maximal_rectangles, initial_state, fresh_current]

/-!
## Characterization of the pruning pass
-/

lemma mem_remove_redundant_iff {rects : List FreeRectangle} {s : FreeRectangle} :
    s ∈ remove_redundant_rectangles rects ↔
      ∃ i : ℕ, rects[i]? = some s ∧
        ∀ j : ℕ, j ≠ i → ∀ r2, rects[j]? = some r2 →
          rect_contains r2 s = false := by
  unfold remove_redundant_rectangles
  constructor
  · intro hs
    rcases List.mem_map.1 hs with ⟨p, hp, rfl⟩
    obtain ⟨hpe, hpred⟩ := List.mem_filter.1 hp
    rw [Bool.not_eq_true'] at hpred
    have hget : rects[p.1]? = some p.2 := List.mem_enum_iff_getElem?.1 hpe
    refine ⟨p.1, hget, ?_⟩
    intro j hj r2 hr2
    have hqe : (j, r2) ∈ rects.enum := List.mem_enum_iff_getElem?.2 hr2
    have h2 := List.any_eq_false.1 hpred (j, r2) hqe
    simp only [Bool.and_eq_true, bne_iff_ne, ne_eq, not_and] at h2
    exact Bool.eq_false_iff.2 (h2 hj)
  · rintro ⟨i, hget, hmin⟩
    have hpe : (i, s) ∈ rects.enum := List.mem_enum_iff_getElem?.2 hget
    refine List.mem_map.2 ⟨(i, s), List.mem_filter.2 ⟨hpe, ?_⟩, rfl⟩
    have hany : rects.enum.any
        (fun q => q.1 != i && rect_contains q.2 s) = false := by
      apply List.any_eq_false.2
      rintro ⟨j, r2⟩ hq
      intro hcontra
      rw [Bool.and_eq_true] at hcontra
      obtain ⟨hne, hcont⟩ := hcontra
      have hj : j ≠ i := by simpa using hne
      have hr2 : rects[j]? = some r2 := List.mem_enum_iff_getElem?.1 hq
      rw [hmin j hj r2 hr2] at hcont
      cases hcont
    rw [hany]
    rfl

/-- When nothing fits the current pallet nor a fresh one (and the weight
check passes), the step force-places the item at the origin of the fresh
pallet with the first orientation, instead of recording it as unplaced. -/
lemma pack_step_force (cfg : PaletConfig) (st : PackState) (urun : UrunData)
    (h1 : best_fit_search (possible_orientations_for urun)
      st.current.free_rects = none)
    (hw : ¬ cfg.max_weight < st.current.weight + urun.agirlik)
    (h2 : best_fit_search (possible_orientations_for urun)
      (initial_free_rects cfg) = none) :
    pack_step cfg st urun =
      place_item (emit_if_nonempty st cfg) urun
        ⟨0, 0, 0, cfg.length, cfg.width, cfg.height⟩
        ((possible_orientations_for urun).headD
          (urun.boy, urun.en, urun.yukseklik)) := by
  unfold pack_step
  dsimp only
  rw [if_neg hw, h1]
  have hfr : (emit_if_nonempty st cfg).current.free_rects =
      initial_free_rects cfg := by
    rw [emit_current]; rfl
  rw [hfr, h2]
  rfl

/-- The split step emits at most six residual sub-cuboids. -/
lemma split_length_le (rect : FreeRectangle) (px py pz pl pw ph : ℚ) :
    (split_rectangle_maximal rect px py pz pl pw ph).length ≤ 6 := by
  unfold split_rectangle_maximal
  split_ifs <;> simp

/-!
## Concrete test fixtures used by the counterexamples and witnesses
-/

/-!
## Claim theorems
-/

/-- C1 counterexample: an item larger than the pallet on every axis is
force-placed at the origin anyway, so the returned placement violates the
pallet bounds; the claim fails as stated for arbitrary inputs. -/
theorem claim_C1_counterexample :
    pack_maximal_rectangles [c1_urun] c1_cfg =
      [⟨[⟨c1_urun, 0, 0, 0, 2, 2, 2⟩], 5⟩] ∧
    ¬ in_bounds c1_cfg ⟨c1_urun, 0, 0, 0, 2, 2, 2⟩ := by
  constructor
  · norm_num [pack_maximal_rectangles, pack_step, initial_state, fresh_current,
      initial_free_rects, emit_if_nonempty, best_fit_search, candidate_pairs,
      best_fit_step, cand_fits, cand_score, short_side, FreeRectangle.can_fit,
      possible_orientations_for, place_item, update_free_rects, intersects_3d,
      split_rectangle_maximal, remove_redundant_rectangles, rect_contains,
      c1_urun, c1_cfg]
  · norm_num [in_bounds, c1_cfg]

/-- C1 (amended): provided every product fits inside an empty pallet in at
least one of its orientations, every placement returned by
`pack_maximal_rectangles` lies inside the pallet cuboid: `0 ≤ x`,
`x + L ≤ pallet.length`, and analogously for `y`/`W` and `z`/`H`. -/
theorem claim_C1_bounds_amended (urunler : List UrunData) (cfg : PaletConfig)
    (h : ∀ u ∈ urunler, fits_empty_pallet cfg u) :
    ∀ pal ∈ pack_maximal_rectangles urunler cfg, ∀ p ∈ pal.items,
      in_bounds cfg p :=
  pack_bounds urunler cfg h

/-- Witness for C1 (amended) at a concrete input. -/
theorem claim_C1_bounds_amended_witness :
    in_bounds c1_cfg_ok ⟨c1_urun_ok, 0, 0, 0, 1, 1, 1⟩ :=
  claim_C1_bounds_amended [c1_urun_ok] c1_cfg_ok
    (by
      intro u hu
      rcases List.mem_singleton.1 hu with rfl
      exact ⟨(1, 1, 1),
        by norm_num [possible_orientations_for, c1_urun_ok],
        by norm_num [c1_cfg_ok]⟩)
    ⟨[⟨c1_urun_ok, 0, 0, 0, 1, 1, 1⟩], 3⟩
    (by
      norm_num [pack_maximal_rectangles, pack_step, initial_state, fresh_current,
        initial_free_rects, emit_if_nonempty, best_fit_search, candidate_pairs,
        best_fit_step, cand_fits, cand_score, short_side, FreeRectangle.can_fit,
        possible_orientations_for, place_item, update_free_rects, intersects_3d,
        split_rectangle_maximal, remove_redundant_rectangles, rect_contains,
        c1_urun_ok, c1_cfg_ok])
    ⟨c1_urun_ok, 0, 0, 0, 1, 1, 1⟩
    (by simp)

/-- C2 counterexample: an item that fits no orientation of an empty pallet
is not recorded as unplaced; it appears inside a returned pallet, placed
at the origin with its first orientation. -/
theorem claim_C2_counterexample :
    pack_maximal_rectangles [c2_urun] c2_cfg =
      [⟨[⟨c2_urun, 0, 0, 0, 3, 3, 3⟩], 4⟩] ∧
    (⟨c2_urun, 0, 0, 0, 3, 3, 3⟩ : Placement) ∈
      (pack_maximal_rectangles [c2_urun] c2_cfg).flatMap Pallet.items := by
  have hres : pack_maximal_rectangles [c2_urun] c2_cfg =
      [⟨[⟨c2_urun, 0, 0, 0, 3, 3, 3⟩], 4⟩] := by
    norm_num [pack_maximal_rectangles, pack_step, initial_state, fresh_current,
      initial_free_rects, emit_if_nonempty, best_fit_search, candidate_pairs,
      best_fit_step, cand_fits, cand_score, short_side, FreeRectangle.can_fit,
      possible_orientations_for, place_item, update_free_rects, intersects_3d,
      split_rectangle_maximal, remove_redundant_rectangles, rect_contains,
      c2_urun, c2_cfg]
  exact ⟨hres, by rw [hres]; simp⟩

/-- C2 (amended): when an item fits no orientation in any free rect of the
current pallet (and the weight pre-check passes) and still fits no
orientation on a fresh empty pallet, `pack_step` does not record it as
unplaced: it finalizes the current pallet and force-places the item at the
origin of the fresh pallet with the first orientation, then continues. -/
theorem claim_C2_force_place_amended (cfg : PaletConfig) (st : PackState)
    (urun : UrunData)
    (h1 : best_fit_search (possible_orientations_for urun)
      st.current.free_rects = none)
    (hw : ¬ cfg.max_weight < st.current.weight + urun.agirlik)
    (h2 : best_fit_search (possible_orientations_for urun)
      (initial_free_rects cfg) = none) :
    (pack_step cfg st urun).pallets = (emit_if_nonempty st cfg).pallets ∧
    (pack_step cfg st urun).current.items =
      [⟨urun, 0, 0, 0,
        ((possible_orientations_for urun).headD
          (urun.boy, urun.en, urun.yukseklik)).1,
        ((possible_orientations_for urun).headD
          (urun.boy, urun.en, urun.yukseklik)).2.1,
        ((possible_orientations_for urun).headD
          (urun.boy, urun.en, urun.yukseklik)).2.2⟩] := by
  rw [pack_step_force cfg st urun h1 hw h2]
  refine ⟨rfl, ?_⟩
  simp [place_item, emit_current, fresh_current]

/-- Witness for C2 (amended) at a concrete input. -/
theorem claim_C2_force_place_amended_witness :
    (pack_step c2_cfg (initial_state c2_cfg) c2_urun).pallets =
      (emit_if_nonempty (initial_state c2_cfg) c2_cfg).pallets ∧
    (pack_step c2_cfg (initial_state c2_cfg) c2_urun).current.items =
      [⟨c2_urun, 0, 0, 0,
        ((possible_orientations_for c2_urun).headD
          (c2_urun.boy, c2_urun.en, c2_urun.yukseklik)).1,
        ((possible_orientations_for c2_urun).headD
          (c2_urun.boy, c2_urun.en, c2_urun.yukseklik)).2.1,
        ((possible_orientations_for c2_urun).headD
          (c2_urun.boy, c2_urun.en, c2_urun.yukseklik)).2.2⟩] :=
  claim_C2_force_place_amended c2_cfg (initial_state c2_cfg) c2_urun
    (by norm_num [best_fit_search, candidate_pairs, best_fit_step, cand_fits,
      cand_score, short_side, FreeRectangle.can_fit, possible_orientations_for,
      initial_state, fresh_current, initial_free_rects, c2_urun, c2_cfg])
    (by norm_num [initial_state, fresh_current, c2_urun, c2_cfg])
    (by norm_num [best_fit_search, candidate_pairs, best_fit_step, cand_fits,
      cand_score, short_side, FreeRectangle.can_fit, possible_orientations_for,
      initial_free_rects, c2_urun, c2_cfg])

/-- C3 counterexample: a single product heavier than the pallet cap is
still placed, so the returned pallet violates the weight cap; the claim
fails as stated for arbitrary inputs. -/
theorem claim_C3_counterexample :
    pack_maximal_rectangles [c3_urun] c3_cfg =
      [⟨[⟨c3_urun, 0, 0, 0, 1, 1, 1⟩], 10⟩] ∧
    ¬ pallet_weight_sum [⟨c3_urun, 0, 0, 0, 1, 1, 1⟩] ≤ c3_cfg.max_weight := by
  constructor
  · norm_num [pack_maximal_rectangles, pack_step, initial_state, fresh_current,
      initial_free_rects, emit_if_nonempty, best_fit_search, candidate_pairs,
      best_fit_step, cand_fits, cand_score, short_side, FreeRectangle.can_fit,
      possible_orientations_for, place_item, update_free_rects, intersects_3d,
      split_rectangle_maximal, remove_redundant_rectangles, rect_contains,
      c3_urun, c3_cfg]
  · norm_num [pallet_weight_sum, c3_urun, c3_cfg]

/-- C3 (amended): provided every product's weight is at most the pallet
cap, every pallet returned by `pack_maximal_rectangles` satisfies the
weight cap: the sum of the weights of its placed products is at most
`pallet.max_weight`. -/
theorem claim_C3_weight_amended (urunler : List UrunData) (cfg : PaletConfig)
    (h : ∀ u ∈ urunler, u.agirlik ≤ cfg.max_weight) :
    ∀ pal ∈ pack_maximal_rectangles urunler cfg,
      pallet_weight_sum pal.items ≤ cfg.max_weight := by
  intro pal hpal
  rw [← pack_weight_eq urunler cfg pal hpal]
  exact pack_weight_cap urunler cfg h pal hpal

/-- Witness for C3 (amended) at a concrete input. -/
theorem claim_C3_weight_amended_witness :
    pallet_weight_sum [⟨c3_urun_ok, 0, 0, 0, 1, 1, 1⟩] ≤ c3_cfg_ok.max_weight :=
  claim_C3_weight_amended [c3_urun_ok] c3_cfg_ok
    (by norm_num [c3_urun_ok, c3_cfg_ok])
    ⟨[⟨c3_urun_ok, 0, 0, 0, 1, 1, 1⟩], 4⟩
    (by norm_num [pack_maximal_rectangles, pack_step, initial_state, fresh_current,
      initial_free_rects, emit_if_nonempty, best_fit_search, candidate_pairs,
      best_fit_step, cand_fits, cand_score, short_side, FreeRectangle.can_fit,
      possible_orientations_for, place_item, update_free_rects, intersects_3d,
      split_rectangle_maximal, remove_redundant_rectangles, rect_contains,
      c3_urun_ok, c3_cfg_ok])

/-- C4: for every list of products and every pallet configuration, any two
distinct placements within the same returned pallet have strictly disjoint
interiors: their boxes are separated (touching faces allowed) along at
least one of the three axes. -/
theorem claim_C4_no_overlap (urunler : List UrunData) (cfg : PaletConfig) :
    ∀ pal ∈ pack_maximal_rectangles urunler cfg,
      pal.items.Pairwise placements_separated :=
  pack_geom urunler cfg

/-- Witness for C4 at a concrete input. -/
theorem claim_C4_no_overlap_witness :
    ([⟨c4_urun, 0, 0, 0, 2, 2, 2⟩, ⟨c4_urun, 2, 0, 0, 2, 2, 2⟩] :
      List Placement).Pairwise placements_separated :=
  claim_C4_no_overlap [c4_urun, c4_urun] c4_cfg
    ⟨[⟨c4_urun, 0, 0, 0, 2, 2, 2⟩, ⟨c4_urun, 2, 0, 0, 2, 2, 2⟩], 2⟩
    (by
      have hres : pack_maximal_rectangles [c4_urun, c4_urun] c4_cfg =
          [⟨[⟨c4_urun, 0, 0, 0, 2, 2, 2⟩, ⟨c4_urun, 2, 0, 0, 2, 2, 2⟩], 2⟩] := by
        norm_num [pack_maximal_rectangles, pack_step, initial_state, fresh_current,
          initial_free_rects, emit_if_nonempty, best_fit_search, candidate_pairs,
          best_fit_step, cand_fits, cand_score, short_side, FreeRectangle.can_fit,
          possible_orientations_for, place_item, update_free_rects, intersects_3d,
          split_rectangle_maximal, remove_redundant_rectangles, rect_contains,
          c4_urun, c4_cfg]
        simp
      rw [hres]
      simp)

/-- C5: `pack_maximal_rectangles` does not reorder its input: concatenating
the items of the returned pallets in order yields exactly the input product
list (no product is dropped or duplicated, and no unplaced records exist,
so placements account for the full input count). -/
theorem claim_C5_conservation (urunler : List UrunData) (cfg : PaletConfig) :
    (pack_maximal_rectangles urunler cfg).flatMap
      (fun pal => pal.items.map Placement.urun) = urunler :=
  pack_products urunler cfg

/-- C6 counterexample: two free rects tie on the BSSF score while the
second has a strictly smaller volume residual, yet the packer's search
keeps the first; the volume tie-break claimed by the spec does not exist
in the packer's loop. -/
theorem claim_C6_counterexample :
    best_fit_search (possible_orientations_for c6_urun) [c6_rect1, c6_rect2] =
      some (((1, 1, 1), c6_rect1), 1) ∧
    cand_fits ((1, 1, 1), c6_rect2) = true ∧
    cand_score ((1, 1, 1), c6_rect2) = cand_score ((1, 1, 1), c6_rect1) ∧
    c6_rect2.volume - 1 * 1 * 1 < c6_rect1.volume - 1 * 1 * 1 := by
  refine ⟨?_, ?_, ?_, ?_⟩ <;>
    norm_num [best_fit_search, candidate_pairs, best_fit_step, cand_fits,
      cand_score, short_side, FreeRectangle.can_fit, FreeRectangle.volume,
      possible_orientations_for, c6_urun, c6_rect1, c6_rect2]

/-- C6 (amended): the winner of the packer's best-fit search fits, carries
its own BSSF score `min(rect.length - L, rect.width - W)`, minimizes that
score among all fitting (orientation, rect) candidates, and is the
earliest candidate attaining the minimum in iteration order (orientation
index first, then free-rect order); there is no volume tie-break in the
packer's loop. -/
theorem claim_C6_bssf_amended (orients : List (ℚ × ℚ × ℚ))
    (rects : List FreeRectangle)
    (b : (ℚ × ℚ × ℚ) × FreeRectangle) (s : ℚ)
    (h : best_fit_search orients rects = some (b, s)) :
    cand_fits b = true ∧ s = cand_score b ∧
    (∀ c ∈ candidate_pairs orients rects, cand_fits c = true →
      s ≤ cand_score c) ∧
    ∃ l1 l2, candidate_pairs orients rects = l1 ++ b :: l2 ∧
      ∀ c ∈ l1, cand_fits c = true → s < cand_score c := by
  have hinv := search_inv_result (candidate_pairs orients rects)
  rw [best_fit_search] at h
  rcases hinv with ⟨hacc, _⟩ | ⟨b2, s2, l1, l2, hacc, hbf, hbs, hsplit, hl1, hl2⟩
  · rw [h] at hacc
    cases hacc
  · rw [h] at hacc
    injection hacc with hacc
    rw [Prod.mk.injEq] at hacc
    obtain ⟨rfl, rfl⟩ := hacc
    refine ⟨hbf, hbs, ?_, l1, l2, hsplit, hl1⟩
    intro c hc hcf
    rw [hsplit] at hc
    rcases List.mem_append.1 hc with hc1 | hc2
    · exact le_of_lt (hl1 c hc1 hcf)
    · rcases List.mem_cons.1 hc2 with rfl | hc3
      · exact le_of_eq hbs
      · exact hl2 c hc3 hcf

/-- Witness for C6 (amended) at a concrete input. -/
theorem claim_C6_bssf_amended_witness :
    cand_fits ((1, 1, 1), c6_rect1) = true ∧
    (1 : ℚ) = cand_score ((1, 1, 1), c6_rect1) ∧
    (∀ c ∈ candidate_pairs (possible_orientations_for c6_urun)
        [c6_rect1, c6_rect2],
      cand_fits c = true → (1 : ℚ) ≤ cand_score c) ∧
    ∃ l1 l2, candidate_pairs (possible_orientations_for c6_urun)
        [c6_rect1, c6_rect2] = l1 ++ ((1, 1, 1), c6_rect1) :: l2 ∧
      ∀ c ∈ l1, cand_fits c = true → (1 : ℚ) < cand_score c :=
  claim_C6_bssf_amended (possible_orientations_for c6_urun)
    [c6_rect1, c6_rect2] ((1, 1, 1), c6_rect1) 1
    (by norm_num [best_fit_search, candidate_pairs, best_fit_step, cand_fits,
      cand_score, short_side, FreeRectangle.can_fit,
      possible_orientations_for, c6_urun, c6_rect1, c6_rect2])

/-- C7: in the split phase of a placement, the free list becomes exactly
the residuals of intersecting rects plus the untouched non-intersecting
rects; each of the six residual sub-cuboids LEFT, RIGHT, FRONT, BACK,
BOTTOM, TOP is emitted iff its guard holds, with the stated coordinates
and dimensions, hence between 0 and 6 sub-cuboids per split rect. -/
theorem claim_C7_split_exact (rects : List FreeRectangle)
    (px py pz pl pw ph : ℚ) :
    (∀ s, s ∈ update_free_rects rects px py pz pl pw ph ↔
      ∃ r ∈ rects,
        (intersects_3d r px py pz pl pw ph = true ∧
          s ∈ split_rectangle_maximal r px py pz pl pw ph) ∨
        (intersects_3d r px py pz pl pw ph = false ∧ s = r)) ∧
    (∀ r s, s ∈ split_rectangle_maximal r px py pz pl pw ph ↔
      (r.x < px ∧
        s = ⟨r.x, r.y, r.z, px - r.x, r.width, r.height⟩) ∨
      (px + pl < r.x + r.length ∧
        s = ⟨px + pl, r.y, r.z, r.x + r.length - (px + pl),
             r.width, r.height⟩) ∨
      (r.y < py ∧
        s = ⟨r.x, r.y, r.z, r.length, py - r.y, r.height⟩) ∨
      (py + pw < r.y + r.width ∧
        s = ⟨r.x, py + pw, r.z, r.length,
             r.y + r.width - (py + pw), r.height⟩) ∨
      (r.z < pz ∧
        s = ⟨r.x, r.y, r.z, r.length, r.width, pz - r.z⟩) ∨
      (pz + ph < r.z + r.height ∧
        s = ⟨r.x, r.y, pz + ph, r.length, r.width,
             r.z + r.height - (pz + ph)⟩)) ∧
    (∀ r, (split_rectangle_maximal r px py pz pl pw ph).length ≤ 6) :=
  ⟨fun _ => mem_update_free_rects,
   fun _ _ => split_mem_iff,
   fun r => split_length_le r px py pz pl pw ph⟩

/-- C8 counterexample: in a nested chain of three rects the middle one
contains the smallest and is itself contained in the largest, so it is
pruned; of the pair (smallest, middle) the containing rect is absent from
the result, refuting the claim as stated. -/
theorem claim_C8_counterexample :
    remove_redundant_rectangles [c8_ra, c8_rb, c8_rc] = [c8_rc] ∧
    rect_contains c8_rb c8_ra = true ∧
    c8_rb ≠ c8_ra ∧
    c8_rb ∉ remove_redundant_rectangles [c8_ra, c8_rb, c8_rc] := by
  have hres : remove_redundant_rectangles [c8_ra, c8_rb, c8_rc] = [c8_rc] := by
    norm_num [remove_redundant_rectangles, rect_contains, List.enum,
      List.enumFrom, List.filter_cons, List.any_cons, c8_ra, c8_rb, c8_rc]
  refine ⟨hres, ?_, ?_, ?_⟩
  · norm_num [rect_contains, c8_ra, c8_rb]
  · norm_num [c8_ra, c8_rb]
  · rw [hres]
    norm_num [c8_rb, c8_rc]

/-- C8 (amended): `remove_redundant_rectangles` keeps exactly those rects
not contained (inclusive on all six faces) in a rect at another index of
the list: a rect is in the result iff it occurs at some index such that no
other index holds a rect containing it; in particular every rect contained
in another distinct-index rect is removed, and a containing rect survives
only if nothing else contains it (two equal rects remove each other). -/
theorem claim_C8_prune_amended (rects : List FreeRectangle)
    (s : FreeRectangle) :
    s ∈ remove_redundant_rectangles rects ↔
      ∃ i : ℕ, rects[i]? = some s ∧
        ∀ j : ℕ, j ≠ i → ∀ r2, rects[j]? = some r2 →
          rect_contains r2 s = false :=
  mem_remove_redundant_iff

/-- C9: `pack_maximal_rectangles` never emits an empty pallet — every
returned pallet has a non-empty items list — and an empty product list
yields an empty pallet list, not an error. -/
theorem claim_C9_no_empty_pallets (urunler : List UrunData)
    (cfg : PaletConfig) :
    (∀ pal ∈ pack_maximal_rectangles urunler cfg, pal.items ≠ []) ∧
    pack_maximal_rectangles [] cfg = [] :=
  ⟨pack_nonempty urunler cfg, pack_empty_input cfg⟩

/-- Witness for C9 at a concrete input. -/
theorem claim_C9_no_empty_pallets_witness :
    (⟨[⟨c9_urun, 0, 0, 0, 1, 1, 1⟩], 3⟩ : Pallet).items ≠ [] :=
  (claim_C9_no_empty_pallets [c9_urun] c9_cfg).1
    ⟨[⟨c9_urun, 0, 0, 0, 1, 1, 1⟩], 3⟩
    (by
      have hres : pack_maximal_rectangles [c9_urun] c9_cfg =
          [⟨[⟨c9_urun, 0, 0, 0, 1, 1, 1⟩], 3⟩] := by
        norm_num [pack_maximal_rectangles, pack_step, initial_state,
          fresh_current, initial_free_rects, emit_if_nonempty, best_fit_search,
          candidate_pairs, best_fit_step, cand_fits, cand_score, short_side,
          FreeRectangle.can_fit, possible_orientations_for, place_item,
          update_free_rects, intersects_3d, split_rectangle_maximal,
          remove_redundant_rectangles, rect_contains, c9_urun, c9_cfg]
      rw [hres]
      simp)

/-- C10: for every pallet returned by `pack_maximal_rectangles`, the
reported weight field equals the sum of the `agirlik` values of the
products in that pallet's items list. -/
theorem claim_C10_weight_consistency (urunler : List UrunData)
    (cfg : PaletConfig) :
    ∀ pal ∈ pack_maximal_rectangles urunler cfg,
      pal.weight = pallet_weight_sum pal.items :=
  pack_weight_eq urunler cfg

/-- Witness for C10 at a concrete input. -/
theorem claim_C10_weight_consistency_witness :
    (⟨[⟨c10_urun, 0, 0, 0, 1, 2, 1⟩], 7⟩ : Pallet).weight =
      pallet_weight_sum [⟨c10_urun, 0, 0, 0, 1, 2, 1⟩] :=
  claim_C10_weight_consistency [c10_urun] c10_cfg
    ⟨[⟨c10_urun, 0, 0, 0, 1, 2, 1⟩], 7⟩
    (by
      have hres : pack_maximal_rectangles [c10_urun] c10_cfg =
          [⟨[⟨c10_urun, 0, 0, 0, 1, 2, 1⟩], 7⟩] := by
        norm_num [pack_maximal_rectangles, pack_step, initial_state,
          fresh_current, initial_free_rects, emit_if_nonempty, best_fit_search,
          candidate_pairs, best_fit_step, cand_fits, cand_score, short_side,
          FreeRectangle.can_fit, possible_orientations_for, place_item,
          update_free_rects, intersects_3d, split_rectangle_maximal,
          remove_redundant_rectangles, rect_contains, c10_urun, c10_cfg]
      rw [hres]
      simp)
